import Mathlib

/-!
Verification of the betflow market structure & runner selection engine.

Shallow embedding of the core pipeline:
  * `src/betflow/markets/structure_metrics.py` (tick helpers, ladder builder,
    structure metrics, runner selection) — namespace `Betflow.Markets`;
  * `src/betflow/markets/market_rules.py` (market rule evaluator) — namespace
    `Betflow.Markets`;
  * `src/betflow/services/ticks.py` (alternative tick helpers) — namespace
    `Betflow.Services`.

Python floats are modelled as exact rationals (`ℚ`).  All prices occurring in
the development are decimal fractions, for which the Python code's
`round(x, 10)` re-snapping and its `1e-12` comparison tolerance agree with
exact rational arithmetic (the float error of a sum of two 2-decimal values is
~1e-16, far below both).  Python's `round` builtin rounds half to even; it is
modelled by `pyRound`.  Human-readable f-string details and reasons are
modelled as inductive tags carrying the same numeric payloads, since float
formatting has no exact rational counterpart.  Python `list.sort(key=k)` is a
stable sort by `k`, modelled as `List.mergeSort` with the `≤` relation on keys.
-/

namespace Betflow

/-- `if p then true else false`, the Boolean truth value of a decidable
proposition (used wherever the Python code computes a `bool`). -/
def boolOf (p : Prop) [Decidable p] : Bool :=
  if p then true else false

/-- Python's `round()` to an integer: round half to even (banker's rounding). -/
def pyRound (q : ℚ) : ℤ :=
  let f : ℤ := ⌊q⌋
  let frac : ℚ := q - (f : ℚ)
  if frac < 1/2 then f
  else if 1/2 < frac then f + 1
  else if f % 2 = 0 then f else f + 1

namespace Markets

/-- `_TICK_BANDS` of `markets/structure_metrics.py`:
`(inclusive lower bound, inclusive upper bound, tick size)`. -/
def TICK_BANDS : List (ℚ × ℚ × ℚ) :=
  [(101/100, 2, 1/100),
   (2, 3, 2/100),
   (3, 4, 5/100),
   (4, 6, 10/100),
   (6, 10, 20/100),
   (10, 20, 50/100),
   (20, 30, 1),
   (30, 50, 2),
   (50, 100, 5),
   (100, 1000, 10)]

/-- The band-scanning `for` loop of `tick_size`: first band whose inclusive
bounds contain the price wins. -/
def bandScan (price : ℚ) : List (ℚ × ℚ × ℚ) → Option ℚ
  | [] => none
  | b :: rest => if b.1 ≤ price ∧ price ≤ b.2.1 then some b.2.2 else bandScan price rest

/-- `tick_size` of `markets/structure_metrics.py`; falls back to `0.01` when no
band matches. -/
def tick_size (price : ℚ) : ℚ :=
  match bandScan price TICK_BANDS with
  | some t => t
  | none => 1/100

/-- The `1e-12` tolerance used by `ticks_between`. -/
def EPS : ℚ := 1 / 1000000000000

/-- The walking loop of `ticks_between` (`for _ in range(10000)`), with the
remaining iteration count as fuel; when the fuel runs out the count reached so
far is returned, as in the source.  The float re-snap `round(cur + t, 10)` is
modelled as exact rational addition. -/
def ticksLoop (lay cur : ℚ) (ticks fuel : ℕ) : ℕ :=
  if fuel = 0 then ticks
  else
    let t := tick_size cur
    let nxt := cur + t
    if lay - EPS ≤ nxt then ticks + 1
    else ticksLoop lay nxt (ticks + 1) (fuel - 1)
termination_by fuel
decreasing_by omega

/-- `ticks_between` of `markets/structure_metrics.py`: band-aware tick walk
from `back` up to `lay`. -/
def ticks_between (back lay : ℚ) : ℕ :=
  if lay ≤ back then 0 else ticksLoop lay back 0 10000

/-- `_distance_ticks` of `markets/structure_metrics.py`. -/
def distance_ticks (price centre : ℚ) : ℤ :=
  if price ≤ 0 ∨ centre ≤ 0 then 9999
  else pyRound (|price - centre| / tick_size price)

end Markets

namespace Services

/-- `tick_size` of `services/ticks.py` (chain of strict upper bounds). -/
def tick_size (price : ℚ) : ℚ :=
  if price < 2 then 1/100
  else if price < 3 then 2/100
  else if price < 4 then 5/100
  else if price < 6 then 1/10
  else if price < 10 then 2/10
  else if price < 20 then 5/10
  else if price < 30 then 1
  else if price < 50 then 2
  else if price < 100 then 5
  else 10

/-- `ticks_between` of `services/ticks.py`: constant-increment division by the
tick size at the back price, rounded (`int(round(...))`). -/
def ticks_between (back lay : ℚ) : ℤ :=
  if back ≤ 0 ∨ lay ≤ 0 ∨ lay < back then 0
  else pyRound ((lay - back) / tick_size back)

end Services

namespace Markets

/-- `RunnerLadder` dataclass of `markets/structure_metrics.py`: one runner's
tradable state. -/
structure RunnerLadder where
  selection_id : ℤ
  runner_number : Option ℤ
  name : String
  best_back : Option ℚ
  best_lay : Option ℚ
deriving DecidableEq

/-- `RunnerLadder.spread_ticks` property: tick distance between best back and
best lay, `None` when either side is missing. -/
def RunnerLadder.spread_ticks (r : RunnerLadder) : Option ℕ :=
  match r.best_back, r.best_lay with
  | some b, some l => some (ticks_between b l)
  | _, _ => none

/-- `RunnerLadder.implied_prob` property: `1 / best_back`, `None` when the
back is missing or non-positive. -/
def RunnerLadder.implied_prob (r : RunnerLadder) : Option ℚ :=
  match r.best_back with
  | some b => if b ≤ 0 then none else some (1 / b)
  | none => none

/-- `MarketStructureMetrics` dataclass. -/
structure MarketStructureMetrics where
  runner_count : ℕ
  priced_runner_count : ℕ
  top_n_implied_sum : ℚ
  soup_band_ratio : ℚ
  tier_max_adjacent_ratio : ℚ
deriving DecidableEq

/-- The rank-exclusion diagnostic tag (`"excluded: top N"` / `"excluded:
bottom N"` in the Python reason strings). -/
inductive RankTag where
  | top (n : ℤ)
  | bottom (n : ℤ)
deriving DecidableEq

/-- The reason strings of `select_candidate_runner`, as tags carrying the same
payloads the f-strings interpolate. -/
inductive BaseReason where
  | missingBackLay
  | outsideHardBand
  | outsideHardBandLay (lay lo hi : ℚ)
  | spreadTooWide (st : Option ℕ) (max_spread : ℤ)
  | excludedTop (n : ℤ)
  | excludedBottom (n : ℤ)
  | inPrimaryBand
  | secondaryAllowedAnchored
  | secondaryNotAllowedAnchoring
  | notInAllowedBand
deriving DecidableEq

/-- A reason, optionally suffixed with the rank tag
(`f"{reason}; {rank_tag}"`). -/
structure Reason where
  base : BaseReason
  rank_tag : Option RankTag
deriving DecidableEq

/-- `RunnerSelectionRow` dataclass: one audit row of the selection engine. -/
structure RunnerSelectionRow where
  runner : RunnerLadder
  price_rank : ℕ
  band : String
  spread_ticks : Option ℕ
  distance_ticks : Option ℤ
  score : ℚ
  reason : Reason
deriving DecidableEq

/-- Which eligibility list (if any) a processed runner is appended to. -/
inductive PoolTag where
  | noPool
  | primaryPool
  | secondaryPool
deriving DecidableEq

end Markets

/-- Modelled from the spec: the `FilterConfig` consumed by
`markets/market_rules.py` and `markets/structure_metrics.py` is not defined
anywhere in the repository source (only its call sites are); §3 and §6 of the
spec describe a configuration with a region map (code → name and covered
country codes), per-region runner-count-range and liquidity-minimum
resolution falling back to global defaults, structure-gate thresholds and a
selection configuration.  Region config, per the call sites
(`cfg.regions[code].name`, `region.market_countries`). -/
structure RegionCfg where
  name : String
  market_countries : List String
deriving DecidableEq

/-- Modelled from the spec: result shape of `cfg.resolve_runner_range`
(inclusive runner-count bounds, used as `rr.min <= n <= rr.max`). -/
structure RunnerRange where
  min : ℤ
  max : ℤ
deriving DecidableEq

/-- Anchor gate parameters (`structure_gates.anchor`). -/
structure AnchorGateCfg where
  top_n : ℤ
  min_top_implied : ℚ
deriving DecidableEq

/-- Soup gate parameters (`structure_gates.soup`). -/
structure SoupGateCfg where
  top_k : ℤ
  max_band_ratio : ℚ
deriving DecidableEq

/-- Tier gate parameters (`structure_gates.tier`). -/
structure TierGateCfg where
  top_region : ℤ
  min_jump_ratio : ℚ
deriving DecidableEq

/-- `cfg.structure_gates`. -/
structure StructureGatesCfg where
  anchor : AnchorGateCfg
  soup : SoupGateCfg
  tier : TierGateCfg
deriving DecidableEq

/-- A price band of the selection config (`min`, `max`, optional
`target_price`). -/
structure BandCfg where
  min : ℚ
  max : ℚ
  target_price : Option ℚ
deriving DecidableEq

/-- The secondary band additionally carries
`requires_top_n_implied_at_least`. -/
structure SecondaryBandCfg where
  min : ℚ
  max : ℚ
  target_price : Option ℚ
  requires_top_n_implied_at_least : ℚ
deriving DecidableEq

/-- `cfg.selection.rank_exclusion`. -/
structure RankExclusionCfg where
  top_n : ℤ
  bottom_n : ℤ
deriving DecidableEq

/-- `cfg.selection`. -/
structure SelectionCfg where
  hard_band : BandCfg
  primary_band : BandCfg
  secondary_band : SecondaryBandCfg
  max_spread_ticks : ℤ
  rank_exclusion : RankExclusionCfg
deriving DecidableEq

/-- Modelled from the spec: the whole `FilterConfig`.  `regions` is an
insertion-ordered `dict` (region code → region config), modelled as an
association list scanned in order; `runner_range` and `liquidity_min` model
the opaque resolvers `resolve_runner_range` / `resolve_liquidity_min`, whose
bodies are likewise absent from the source. -/
structure FilterConfig where
  regions : List (String × RegionCfg)
  runner_range : String → RunnerRange
  liquidity_min : String → ℚ
  structure_gates : StructureGatesCfg
  selection : SelectionCfg

namespace Markets

/-- One `(price, size)` entry of an exchange offer list; a malformed entry may
lack the price (`ladder[0].get("price")` returning `None`). -/
structure PriceSize where
  price : Option ℚ
  size : ℚ
deriving DecidableEq

/-- One runner of a market book record: trading status and top-of-book offer
lists (`rb["ex"]["availableToBack"/"availableToLay"]`; an absent `ex` is
modelled as empty lists, which `_best_price` treats identically). -/
structure BookRunner where
  selectionId : ℤ
  status : String
  availableToBack : List PriceSize
  availableToLay : List PriceSize
deriving DecidableEq

/-- A market book record: total matched volume (absent field modelled as
`none`) and the runner list. -/
structure MarketBook where
  totalMatched : Option ℚ
  runners : List BookRunner
deriving DecidableEq

/-- One runner of a market catalogue record.  `cloth_number` is the result of
`_cloth_number_from_metadata` on the runner's metadata (an integer when a
cloth number is present and parses, else `None`); `runnerName` is `None` when
the `"runnerName"` key is absent. -/
structure CatalogueRunner where
  selectionId : ℤ
  runnerName : Option String
  cloth_number : Option ℤ
deriving DecidableEq

/-- A market catalogue record: `event.countryCode` (absent key or absent event
modelled as `none`) and the runner list. -/
structure MarketCatalogue where
  event_countryCode : Option String
  runners : List CatalogueRunner
deriving DecidableEq

/-- `_best_price`: the price of the first (best) entry of an offer list. -/
def best_price (entries : List PriceSize) : Option ℚ :=
  match entries with
  | [] => none
  | e :: _ => e.price

/-- The `sel_to_name` dict lookup: Python dict writes are last-wins, so the
last catalogue runner with the id determines the name; default
`"sel:<id>"`. -/
def catName (cat : MarketCatalogue) (sid : ℤ) : String :=
  match cat.runners.reverse.find? (fun c => boolOf (c.selectionId = sid)) with
  | some c => c.runnerName.getD ("sel:" ++ toString sid)
  | none => "sel:" ++ toString sid

/-- The `sel_to_num` dict lookup (cloth number, last write wins). -/
def clothNum (cat : MarketCatalogue) (sid : ℤ) : Option ℤ :=
  match cat.runners.reverse.find? (fun c => boolOf (c.selectionId = sid)) with
  | some c => c.cloth_number
  | none => none

/-- `r.best_back or 9999.0`: Python `or` replaces a falsy (`None` or `0.0`)
best back with the sentinel. -/
def pySortVal (r : RunnerLadder) : ℚ :=
  match r.best_back with
  | some b => if b = 0 then 9999 else b
  | none => 9999

/-- The ladder sort key of `build_runner_ladders`:
`(r.best_back is None, r.best_back or 9999.0)`, compared as a Python tuple
(`False < True`, then the numeric key). -/
def ladderLe (a b : RunnerLadder) : Bool :=
  boolOf ((a.best_back.isNone = false ∧ b.best_back.isNone = true) ∨
    (a.best_back.isNone = b.best_back.isNone ∧ pySortVal a ≤ pySortVal b))

/-- `build_runner_ladders` of `markets/structure_metrics.py`: keep exactly the
ACTIVE book runners, join names/cloth numbers by selection id, extract best
back/lay, and stable-sort by the ladder key (best back ascending, unpriced
last). -/
def build_runner_ladders (cat : MarketCatalogue) (book : MarketBook) : List RunnerLadder :=
  let out := book.runners.filterMap (fun rb =>
    if rb.status = "ACTIVE" then
      some { selection_id := rb.selectionId
             runner_number := clothNum cat rb.selectionId
             name := catName cat rb.selectionId
             best_back := best_price rb.availableToBack
             best_lay := best_price rb.availableToLay }
    else none)
  out.mergeSort ladderLe

/-- The priced-row filter (`r.best_back is not None and r.best_back > 0`). -/
def posBack (r : RunnerLadder) : Bool :=
  match r.best_back with
  | some b => boolOf (0 < b)
  | none => false

/-- `compute_market_structure_metrics` of `markets/structure_metrics.py`. -/
def compute_market_structure_metrics (ladders : List RunnerLadder)
    (anchor_top_n soup_top_k tier_top_region : ℤ) : MarketStructureMetrics :=
  let rows := ladders
  let runner_count := rows.length
  let priced := rows.filter posBack
  let priced_runner_count := priced.length
  let top := priced.take (max anchor_top_n 0).toNat
  let top_n_implied_sum := (top.map (fun r =>
    match r.implied_prob with
    | some v => if v = 0 then 0 else v
    | none => (0 : ℚ))).sum
  let soup_rows := priced.take (max soup_top_k 0).toNat
  let soup_band_ratio : ℚ :=
    if 2 ≤ soup_rows.length then
      let prices := soup_rows.filterMap (·.best_back)
      match prices with
      | [] => 999   -- dead branch: every priced row has a best back, and
                    -- Python's min() would raise on an empty list
      | p :: ps =>
        let mn := ps.foldl min p
        let mx := ps.foldl max p
        if 0 < mn then mx / mn else 999
    else 999
  let tier_rows := priced.take (max tier_top_region 0).toNat
  let tier_max_adjacent_ratio : ℚ :=
    (tier_rows.zip tier_rows.tail).foldl (fun acc ab =>
      match ab.1.best_back, ab.2.best_back with
      | some ba, some bb => if ba ≠ 0 ∧ bb ≠ 0 ∧ 0 < ba then max acc (bb / ba) else acc
      | _, _ => acc) 0
  { runner_count := runner_count
    priced_runner_count := priced_runner_count
    top_n_implied_sum := top_n_implied_sum
    soup_band_ratio := soup_band_ratio
    tier_max_adjacent_ratio := tier_max_adjacent_ratio }

/-- The price-rank sort key of `select_candidate_runner`
(`key=lambda r: r.best_back or 9999.0`). -/
def rowsLe (a b : RunnerLadder) : Bool :=
  boolOf (pySortVal a ≤ pySortVal b)

/-- `primary.target_price`, defaulting to the band midpoint. -/
def primary_target (cfg : FilterConfig) : ℚ :=
  match cfg.selection.primary_band.target_price with
  | some t => t
  | none => (cfg.selection.primary_band.min + cfg.selection.primary_band.max) / 2

/-- `secondary.target_price`, defaulting to the band midpoint. -/
def secondary_target (cfg : FilterConfig) : ℚ :=
  match cfg.selection.secondary_band.target_price with
  | some t => t
  | none => (cfg.selection.secondary_band.min + cfg.selection.secondary_band.max) / 2

/-- One iteration of the per-runner loop of `select_candidate_runner`
(`for idx, r in enumerate(rows, start=1)`), returning the debug row it appends
and which eligibility list (if any) the row is also appended to.  Branches in
source order: rank tag pre-computation, missing back/lay, hard band on back,
hard band on lay, structural band, spread gate, rank exclusion, primary band,
anchored secondary band, residual HARD reasons.  (The unused local
`top_n = max(int(getattr(getattr(cfg.structure_gates.anchor, "top_n", 3), 0)), 0)` of the source binds a
value that is never read and is omitted.) -/
def processRunner (cfg : FilterConfig) (anchored_ok : Bool) (total idx : ℕ)
    (r : RunnerLadder) : RunnerSelectionRow × PoolTag :=
  let hard := cfg.selection.hard_band
  let primary := cfg.selection.primary_band
  let secondary := cfg.selection.secondary_band
  let max_spread := cfg.selection.max_spread_ticks
  let top_excl := cfg.selection.rank_exclusion.top_n
  let bot_excl := cfg.selection.rank_exclusion.bottom_n
  let st := r.spread_ticks
  let rank_tag : Option RankTag :=
    if 0 < top_excl ∧ (idx : ℤ) ≤ top_excl then some (RankTag.top top_excl)
    else if 0 < bot_excl ∧ (total : ℤ) - (idx : ℤ) < bot_excl then some (RankTag.bottom bot_excl)
    else none
  match r.best_back, r.best_lay with
  | some back, some lay =>
    if ¬ (hard.min ≤ back ∧ back ≤ hard.max) then
      (⟨r, idx, "-", st, none, -9999, ⟨BaseReason.outsideHardBand, rank_tag⟩⟩, PoolTag.noPool)
    else if ¬ (hard.min ≤ lay ∧ lay ≤ hard.max) then
      (⟨r, idx, "-", st, none, -9999,
        ⟨BaseReason.outsideHardBandLay lay hard.min hard.max, rank_tag⟩⟩, PoolTag.noPool)
    else
      let in_primary := primary.min ≤ back ∧ back ≤ primary.max
      let in_secondary := secondary.min ≤ back ∧ back ≤ secondary.max
      let structural_band : String :=
        if in_primary then "PRIMARY"
        else if in_secondary ∧ anchored_ok = true then "SECONDARY"
        else "HARD"
      let spread_bad : Bool :=
        match st with
        | none => true
        | some s => boolOf (max_spread < (s : ℤ))
      if spread_bad = true then
        (⟨r, idx, structural_band, st, none, -9999,
          ⟨BaseReason.spreadTooWide st max_spread, rank_tag⟩⟩, PoolTag.noPool)
      else if 0 < top_excl ∧ (idx : ℤ) ≤ top_excl then
        (⟨r, idx, "HARD", st, none, -9999,
          ⟨BaseReason.excludedTop top_excl, none⟩⟩, PoolTag.noPool)
      else if 0 < bot_excl ∧ (total : ℤ) - (idx : ℤ) < bot_excl then
        (⟨r, idx, "HARD", st, none, -9999,
          ⟨BaseReason.excludedBottom bot_excl, none⟩⟩, PoolTag.noPool)
      else if in_primary then
        (⟨r, idx, "PRIMARY", st, some (distance_ticks back (primary_target cfg)), 0,
          ⟨BaseReason.inPrimaryBand, none⟩⟩, PoolTag.primaryPool)
      else if anchored_ok = true ∧ in_secondary then
        (⟨r, idx, "SECONDARY", st, some (distance_ticks back (secondary_target cfg)), 0,
          ⟨BaseReason.secondaryAllowedAnchored, none⟩⟩, PoolTag.secondaryPool)
      else if in_secondary ∧ ¬ (anchored_ok = true) then
        (⟨r, idx, "HARD", st, none, -9999,
          ⟨BaseReason.secondaryNotAllowedAnchoring, none⟩⟩, PoolTag.noPool)
      else
        (⟨r, idx, "HARD", st, none, -9999,
          ⟨BaseReason.notInAllowedBand, none⟩⟩, PoolTag.noPool)
  | _, _ =>
    (⟨r, idx, "-", st, none, -9999, ⟨BaseReason.missingBackLay, rank_tag⟩⟩, PoolTag.noPool)

/-- The ordering tuple `_order_key`:
`(spread_ticks or 9999, distance_ticks or 9999, best_back or 9999.0)` (each via
`is not None`). -/
def okey (row : RunnerSelectionRow) : ℕ × ℤ × ℚ :=
  (row.spread_ticks.getD 9999, row.distance_ticks.getD 9999,
    match row.runner.best_back with
    | some b => b
    | none => 9999)

/-- Lexicographic `≤` on order-key tuples, as Python compares tuples. -/
def keyLe (a b : ℕ × ℤ × ℚ) : Prop :=
  a.1 < b.1 ∨ (a.1 = b.1 ∧ (a.2.1 < b.2.1 ∨ (a.2.1 = b.2.1 ∧ a.2.2 ≤ b.2.2)))

instance (a b : ℕ × ℤ × ℚ) : Decidable (keyLe a b) := by
  unfold keyLe; infer_instance

/-- The eligibility-list sort relation (`key=_order_key`, stable ascending). -/
def orderLe (a b : RunnerSelectionRow) : Bool :=
  boolOf (keyLe (okey a) (okey b))

/-- The per-runner pass of `select_candidate_runner`: the priced rows in price
order, each processed by `processRunner`.  The source's single loop appending
to `debug` / `eligible_primary` / `eligible_secondary` is modelled as this map
followed by projections, which preserves each list's contents and order. -/
def selectionProcessed (ladders : List RunnerLadder) (metrics : MarketStructureMetrics)
    (cfg : FilterConfig) : List (RunnerSelectionRow × PoolTag) :=
  let rows := (ladders.filter posBack).mergeSort rowsLe
  let total := rows.length
  let anchored_ok :=
    boolOf (cfg.selection.secondary_band.requires_top_n_implied_at_least ≤
      metrics.top_n_implied_sum)
  (rows.enumFrom 1).map (fun p => processRunner cfg anchored_ok total p.1 p.2)

/-- The `debug` audit-row list of `select_candidate_runner`. -/
def selectionDebug (ladders : List RunnerLadder) (metrics : MarketStructureMetrics)
    (cfg : FilterConfig) : List RunnerSelectionRow :=
  (selectionProcessed ladders metrics cfg).map (·.1)

/-- The `eligible_primary` list of `select_candidate_runner`. -/
def eligiblePrimary (ladders : List RunnerLadder) (metrics : MarketStructureMetrics)
    (cfg : FilterConfig) : List RunnerSelectionRow :=
  (selectionProcessed ladders metrics cfg).filterMap
    (fun p => if p.2 = PoolTag.primaryPool then some p.1 else none)

/-- The `eligible_secondary` list of `select_candidate_runner`. -/
def eligibleSecondary (ladders : List RunnerLadder) (metrics : MarketStructureMetrics)
    (cfg : FilterConfig) : List RunnerSelectionRow :=
  (selectionProcessed ladders metrics cfg).filterMap
    (fun p => if p.2 = PoolTag.secondaryPool then some p.1 else none)

/-- `select_candidate_runner` of `markets/structure_metrics.py`: primary pool
first, else secondary pool, each stable-sorted by `_order_key`; the head's
runner is selected (`eligible_primary[0].runner`); the debug rows are returned
in every case. -/
def select_candidate_runner (ladders : List RunnerLadder) (metrics : MarketStructureMetrics)
    (cfg : FilterConfig) : Option RunnerLadder × List RunnerSelectionRow :=
  match (eligiblePrimary ladders metrics cfg).mergeSort orderLe with
  | row :: _ => (some row.runner, selectionDebug ladders metrics cfg)
  | [] =>
    match (eligibleSecondary ladders metrics cfg).mergeSort orderLe with
    | row :: _ => (some row.runner, selectionDebug ladders metrics cfg)
    | [] => (none, selectionDebug ladders metrics cfg)

/-- Which of the six market-level checks a `RuleResult` reports.  The Python
labels — `"Country"`, `"Field size"`, `"Liquidity"`, `"Anchor (topN
implied)"`, `"Soup (topK band ratio)"`, `"Tier (max adjacent jump topM)"` —
identify the check; the interpolated gate parameters are carried by the
detail. -/
inductive Check where
  | country
  | fieldSize
  | liquidity
  | anchor
  | soup
  | tier
deriving DecidableEq

/-- The human-readable `detail` f-strings of `market_rules.py`, as tags
carrying the interpolated values. -/
inductive RuleDetail where
  | countryMissing
  | countryUnmapped (country : String)
  | countryMapped (country regionCode regionName : String)
  | fieldSize (count : ℕ) (lo hi : ℤ)
  | fieldSizeSkipped
  | liquidity (total_matched liquidity_min : ℚ)
  | liquiditySkipped
  | anchor (top_n : ℤ) (implied_sum threshold : ℚ)
  | soup (top_k : ℤ) (band_r threshold : ℚ)
  | tier (top_region : ℤ) (jump_r threshold : ℚ)
deriving DecidableEq

/-- `RuleResult` dataclass of `markets/market_rules.py`. -/
structure RuleResult where
  ok : Bool
  label : Check
  detail : RuleDetail
deriving DecidableEq

/-- Python's `str.upper()`, modelled over the character list (Lean's own
`String.toUpper` walks byte positions and is opaque to proofs; this is the
same normalization extensionally). -/
def pyUpper (s : String) : String :=
  String.mk (s.data.map Char.toUpper)

/-- Python's `str.strip().upper()`: drop whitespace from both ends, then
upper-case, modelled over the character list. -/
def pyStripUpper (s : String) : String :=
  String.mk
    (((s.data.dropWhile Char.isWhitespace).reverse.dropWhile Char.isWhitespace).reverse.map
      Char.toUpper)

/-- `_region_for_country` of `markets/market_rules.py`: empty/absent country
fails; otherwise the stripped upper-cased code is looked up as a region key,
then (fallback) scanned for in each region's upper-cased `market_countries`,
first match wins (Python dicts iterate in insertion order). -/
def region_for_country (cfg : FilterConfig) (country : Option String) : Option String :=
  match country with
  | none => none
  | some s =>
    if s = "" then none
    else
      let cc := pyStripUpper s
      match cfg.regions.lookup cc with
      | some _ => some cc
      | none =>
        match cfg.regions.find?
            (fun p => (p.2.market_countries.map pyUpper).contains cc) with
        | some p => some p.1
        | none => none

/-- `market_book.get("totalMatched") or 0.0`: an absent (or zero) matched
volume becomes `0.0`. -/
def totalMatchedOrZero (tm : Option ℚ) : ℚ :=
  match tm with
  | none => 0
  | some v => if v = 0 then 0 else v

/-- `evaluate_market_rules` of `markets/market_rules.py`.  Returns
`(accepted, region_code, results)`; the six checks always run, in the order
Country, Field size, Liquidity, Anchor, Soup, Tier, with Field size and
Liquidity reported as failed skips when no region resolves.  The structure
gate parameters are read from the configuration (the source fetches them via
`_get(cfg_dict, [...], default)` on the config's dict form). -/
def evaluate_market_rules (market_catalogue : MarketCatalogue) (market_book : MarketBook)
    (metrics : MarketStructureMetrics) (cfg : FilterConfig) :
    Bool × Option String × List RuleResult :=
  let country := market_catalogue.event_countryCode
  let region_code := region_for_country cfg country
  let sg := cfg.structure_gates
  let country_result : RuleResult :=
    match country with
    | none => ⟨false, Check.country, RuleDetail.countryMissing⟩
    | some s =>
      if s = "" then ⟨false, Check.country, RuleDetail.countryMissing⟩
      else
        match region_code with
        | none => ⟨false, Check.country, RuleDetail.countryUnmapped s⟩
        | some rc =>
          ⟨true, Check.country,
            RuleDetail.countryMapped s rc (((cfg.regions.lookup rc).map (·.name)).getD "")⟩
  let country_ok := country_result.ok
  let regionChecks : Bool × Bool × RuleResult × RuleResult :=
    match region_code with
    | some rc =>
      let rr := cfg.runner_range rc
      let runner_ok :=
        boolOf (rr.min ≤ (metrics.runner_count : ℤ) ∧ (metrics.runner_count : ℤ) ≤ rr.max)
      let lm := cfg.liquidity_min rc
      let total_matched := totalMatchedOrZero market_book.totalMatched
      let liquidity_ok := boolOf (lm ≤ total_matched)
      (runner_ok, liquidity_ok,
        ⟨runner_ok, Check.fieldSize, RuleDetail.fieldSize metrics.runner_count rr.min rr.max⟩,
        ⟨liquidity_ok, Check.liquidity, RuleDetail.liquidity total_matched lm⟩)
    | none =>
      (false, false,
        ⟨false, Check.fieldSize, RuleDetail.fieldSizeSkipped⟩,
        ⟨false, Check.liquidity, RuleDetail.liquiditySkipped⟩)
  let runner_ok := regionChecks.1
  let liquidity_ok := regionChecks.2.1
  let anchor_ok := boolOf (sg.anchor.min_top_implied ≤ metrics.top_n_implied_sum)
  let soup_ok := boolOf (sg.soup.max_band_ratio < metrics.soup_band_ratio)
  let tier_ok := boolOf (sg.tier.min_jump_ratio ≤ metrics.tier_max_adjacent_ratio)
  let results : List RuleResult :=
    [country_result,
     regionChecks.2.2.1,
     regionChecks.2.2.2,
     ⟨anchor_ok, Check.anchor,
       RuleDetail.anchor sg.anchor.top_n metrics.top_n_implied_sum sg.anchor.min_top_implied⟩,
     ⟨soup_ok, Check.soup,
       RuleDetail.soup sg.soup.top_k metrics.soup_band_ratio sg.soup.max_band_ratio⟩,
     ⟨tier_ok, Check.tier,
       RuleDetail.tier sg.tier.top_region metrics.tier_max_adjacent_ratio sg.tier.min_jump_ratio⟩]
  let accepted := country_ok && runner_ok && liquidity_ok && anchor_ok && soup_ok && tier_ok
  (accepted, region_code, results)

end Markets

end Betflow

open Betflow Betflow.Markets

/-- Concrete fixture: a runner backed and layed at 3.0 (zero spread). -/
def wRunner : RunnerLadder := ⟨1, none, "a", some 3, some 3⟩

/-- Concrete fixture: a configuration with hard band [1.01, 100], primary band
[2, 4], secondary band [4, 10] unlocked at anchor sum 0.65, max spread 10 and
no rank exclusion. -/
def wCfg : FilterConfig :=
  ⟨[("GB", ⟨"Great Britain", ["GB"]⟩)], fun _ => ⟨2, 20⟩, fun _ => 500,
    ⟨⟨3, 13/20⟩, ⟨5, 6/5⟩, ⟨6, 5/4⟩⟩,
    ⟨⟨101/100, 100, none⟩, ⟨2, 4, none⟩, ⟨4, 10, none, 13/20⟩, 10, ⟨0, 0⟩⟩⟩

/-- Concrete fixture: metrics with a weak anchor sum (1/3 < 0.65). -/
def wMet : MarketStructureMetrics := ⟨1, 1, 1/3, 999, 0⟩

/-- Concrete fixture for C7's counterexample: primary and secondary bands both
[2, 4] (they overlap), secondary unlocked only at anchor sum 0.65. -/
def c7Cfg : FilterConfig :=
  ⟨[("GB", ⟨"Great Britain", ["GB"]⟩)], fun _ => ⟨2, 20⟩, fun _ => 500,
    ⟨⟨3, 13/20⟩, ⟨5, 6/5⟩, ⟨6, 5/4⟩⟩,
    ⟨⟨101/100, 100, none⟩, ⟨2, 4, none⟩, ⟨2, 4, none, 13/20⟩, 10, ⟨0, 0⟩⟩⟩

/-- Concrete fixture for C7's witness: disjoint primary [6, 8] and secondary
[2, 4] bands. -/
def c7wCfg : FilterConfig :=
  ⟨[("GB", ⟨"Great Britain", ["GB"]⟩)], fun _ => ⟨2, 20⟩, fun _ => 500,
    ⟨⟨3, 13/20⟩, ⟨5, 6/5⟩, ⟨6, 5/4⟩⟩,
    ⟨⟨101/100, 100, none⟩, ⟨6, 8, none⟩, ⟨2, 4, none, 13/20⟩, 10, ⟨0, 0⟩⟩⟩

@[simp] theorem boolOf_eq_true {p : Prop} [Decidable p] : boolOf p = true ↔ p := by
  simp [boolOf]

@[simp] theorem boolOf_eq_false {p : Prop} [Decidable p] : boolOf p = false ↔ ¬ p := by
  simp [boolOf]

theorem ticksLoop_stop {lay cur : ℚ} {ticks fuel : ℕ} (hf : fuel ≠ 0)
    (h : lay - EPS ≤ cur + tick_size cur) : ticksLoop lay cur ticks fuel = ticks + 1 := by
  rw [ticksLoop]; simp [hf, h]

theorem ticksLoop_step {lay cur : ℚ} {ticks fuel : ℕ} (hf : fuel ≠ 0)
    (h : ¬ (lay - EPS ≤ cur + tick_size cur)) :
    ticksLoop lay cur ticks fuel = ticksLoop lay (cur + tick_size cur) (ticks + 1) (fuel - 1) := by
  rw [ticksLoop]; simp [hf, h]

/-- Five `0.01` steps take the walker from 1.50 to 1.55. -/
theorem ticks_between_150_155 : ticks_between (3/2) (31/20) = 5 := by
  rw [ticks_between, if_neg (by norm_num)]
  rw [ticksLoop_step (by norm_num) (by norm_num [tick_size, bandScan, TICK_BANDS, EPS])]
  norm_num [tick_size, bandScan, TICK_BANDS]
  rw [ticksLoop_step (by norm_num) (by norm_num [tick_size, bandScan, TICK_BANDS, EPS])]
  norm_num [tick_size, bandScan, TICK_BANDS]
  rw [ticksLoop_step (by norm_num) (by norm_num [tick_size, bandScan, TICK_BANDS, EPS])]
  norm_num [tick_size, bandScan, TICK_BANDS]
  rw [ticksLoop_step (by norm_num) (by norm_num [tick_size, bandScan, TICK_BANDS, EPS])]
  norm_num [tick_size, bandScan, TICK_BANDS]
  rw [ticksLoop_stop (by norm_num) (by norm_num [tick_size, bandScan, TICK_BANDS, EPS])]

/-- The walk from 1.98 to 2.02 takes four steps, not three: at the band
boundary 2.00 the first (inclusive) band still applies its 0.01 tick, so the
walker visits 1.99, 2.00, 2.01 and then overshoots to 2.03. -/
theorem ticks_between_198_202 : ticks_between (99/50) (101/50) = 4 := by
  rw [ticks_between, if_neg (by norm_num)]
  rw [ticksLoop_step (by norm_num) (by norm_num [tick_size, bandScan, TICK_BANDS, EPS])]
  norm_num [tick_size, bandScan, TICK_BANDS]
  rw [ticksLoop_step (by norm_num) (by norm_num [tick_size, bandScan, TICK_BANDS, EPS])]
  norm_num [tick_size, bandScan, TICK_BANDS]
  rw [ticksLoop_step (by norm_num) (by norm_num [tick_size, bandScan, TICK_BANDS, EPS])]
  norm_num [tick_size, bandScan, TICK_BANDS]
  rw [ticksLoop_stop (by norm_num) (by norm_num [tick_size, bandScan, TICK_BANDS, EPS])]

/-- Band-aware walk from 2.98 to 3.10: 3.00, 3.02 (the inclusive 2–3 band
still applies at 3.00), 3.07, 3.12 — four steps. -/
theorem ticks_between_298_310 : ticks_between (149/50) (31/10) = 4 := by
  rw [ticks_between, if_neg (by norm_num)]
  rw [ticksLoop_step (by norm_num) (by norm_num [tick_size, bandScan, TICK_BANDS, EPS])]
  norm_num [tick_size, bandScan, TICK_BANDS]
  rw [ticksLoop_step (by norm_num) (by norm_num [tick_size, bandScan, TICK_BANDS, EPS])]
  norm_num [tick_size, bandScan, TICK_BANDS]
  rw [ticksLoop_step (by norm_num) (by norm_num [tick_size, bandScan, TICK_BANDS, EPS])]
  norm_num [tick_size, bandScan, TICK_BANDS]
  rw [ticksLoop_stop (by norm_num) (by norm_num [tick_size, bandScan, TICK_BANDS, EPS])]


theorem svc_ticks_between_150_155 : Services.ticks_between (3/2) (31/20) = 5 := by
  norm_num [Services.ticks_between, Services.tick_size, pyRound]

theorem svc_ticks_between_198_202 : Services.ticks_between (99/50) (101/50) = 4 := by
  norm_num [Services.ticks_between, Services.tick_size, pyRound]

/-- The constant-increment variant divides 0.12 by the 0.02 tick at 2.98 and
gets 6, where the band-aware walker gets 4. -/
theorem svc_ticks_between_298_310 : Services.ticks_between (149/50) (31/10) = 6 := by
  norm_num [Services.ticks_between, Services.tick_size, pyRound]


/-- C1: `evaluate_market_rules` always returns exactly six `RuleResult`
entries, in the fixed order Country, Field size, Liquidity, Anchor, Soup,
Tier; when no region resolves, Field size and Liquidity are still emitted as
failed skips; and the accepted flag is true iff all six checks pass. -/
theorem C1_six_checks_fixed_order (cat : MarketCatalogue) (book : MarketBook)
    (metrics : MarketStructureMetrics) (cfg : FilterConfig) :
    ((evaluate_market_rules cat book metrics cfg).2.2).map (·.label) =
      [Check.country, Check.fieldSize, Check.liquidity, Check.anchor, Check.soup, Check.tier]
    ∧ ((evaluate_market_rules cat book metrics cfg).1 = true ↔
        ∀ r ∈ (evaluate_market_rules cat book metrics cfg).2.2, r.ok = true)
    ∧ (region_for_country cfg cat.event_countryCode = none →
        (evaluate_market_rules cat book metrics cfg).2.2.get? 1 =
          some ⟨false, Check.fieldSize, RuleDetail.fieldSizeSkipped⟩ ∧
        (evaluate_market_rules cat book metrics cfg).2.2.get? 2 =
          some ⟨false, Check.liquidity, RuleDetail.liquiditySkipped⟩) := by
  unfold evaluate_market_rules
  cases hc : cat.event_countryCode with
  | none =>
    have hr0 : region_for_country cfg none = none := rfl
    simp [hr0, List.get?]
  | some s =>
    cases hr : region_for_country cfg (some s) with
    | none =>
      by_cases hs : s = "" <;> simp [hr, hs, List.get?]
      tauto
    | some rc =>
      have hs : ¬ s = "" := by
        intro h
        rw [h] at hr
        simp [region_for_country] at hr
      simp [hr, hs, List.get?]
      tauto

/-- Witness for C1 at a concrete input with no resolvable region. -/
theorem C1_six_checks_fixed_order_witness :
    (evaluate_market_rules ⟨none, []⟩ ⟨none, []⟩ ⟨0, 0, 0, 0, 0⟩
      ⟨[], fun _ => ⟨0, 0⟩, fun _ => 0, ⟨⟨3, 0⟩, ⟨5, 0⟩, ⟨6, 0⟩⟩,
        ⟨⟨0, 0, none⟩, ⟨0, 0, none⟩, ⟨0, 0, none, 0⟩, 0, ⟨0, 0⟩⟩⟩).2.2.get? 1 =
      some ⟨false, Check.fieldSize, RuleDetail.fieldSizeSkipped⟩ :=
  ((C1_six_checks_fixed_order ⟨none, []⟩ ⟨none, []⟩ ⟨0, 0, 0, 0, 0⟩
      ⟨[], fun _ => ⟨0, 0⟩, fun _ => 0, ⟨⟨3, 0⟩, ⟨5, 0⟩, ⟨6, 0⟩⟩,
        ⟨⟨0, 0, none⟩, ⟨0, 0, none⟩, ⟨0, 0, none, 0⟩, 0, ⟨0, 0⟩⟩⟩).2.2
    (by simp [region_for_country])).1

/-- The liquidity input sees no difference between an absent `totalMatched`
and an explicit zero. -/
theorem totalMatchedOrZero_none_eq_some_zero :
    totalMatchedOrZero (some 0) = totalMatchedOrZero none := by
  norm_num [totalMatchedOrZero]

/-- C10: a missing `totalMatched` is treated as matched volume `0.0` — the
whole evaluation equals the one on an explicit zero, the liquidity check
compares `0` against the region's liquidity minimum (failing whenever that
minimum is positive), and every other entry of the six-item result list, as
well as the resolved region, is unaffected by the field. -/
theorem C10_missing_totalMatched_is_zero (cat : MarketCatalogue)
    (metrics : MarketStructureMetrics) (cfg : FilterConfig) (rs : List BookRunner) :
    evaluate_market_rules cat ⟨none, rs⟩ metrics cfg =
      evaluate_market_rules cat ⟨some 0, rs⟩ metrics cfg
    ∧ (∀ rc, region_for_country cfg cat.event_countryCode = some rc →
        (evaluate_market_rules cat ⟨none, rs⟩ metrics cfg).2.2.get? 2 =
          some ⟨boolOf (cfg.liquidity_min rc ≤ 0), Check.liquidity,
            RuleDetail.liquidity 0 (cfg.liquidity_min rc)⟩
        ∧ (0 < cfg.liquidity_min rc →
            ((evaluate_market_rules cat ⟨none, rs⟩ metrics cfg).2.2.get? 2).map (·.ok) =
              some false))
    ∧ (∀ tm : Option ℚ, ∀ i : ℕ, i ≠ 2 →
        (evaluate_market_rules cat ⟨tm, rs⟩ metrics cfg).2.2.get? i =
          (evaluate_market_rules cat ⟨none, rs⟩ metrics cfg).2.2.get? i)
    ∧ (∀ tm : Option ℚ, (evaluate_market_rules cat ⟨tm, rs⟩ metrics cfg).2.1 =
        (evaluate_market_rules cat ⟨none, rs⟩ metrics cfg).2.1) := by
  refine ⟨?_, ?_, ?_, fun tm => rfl⟩
  · unfold evaluate_market_rules
    rw [show (⟨some 0, rs⟩ : MarketBook).totalMatched = some 0 from rfl,
      show (⟨none, rs⟩ : MarketBook).totalMatched = none from rfl,
      totalMatchedOrZero_none_eq_some_zero]
  · intro rc hrc
    refine ⟨?_, ?_⟩
    · simp only [evaluate_market_rules, hrc]
      simp [List.get?, totalMatchedOrZero]
    · intro hpos
      simp only [evaluate_market_rules, hrc]
      simp [List.get?, totalMatchedOrZero]
      linarith
  · intro tm i hi
    unfold evaluate_market_rules
    cases hreg : region_for_country cfg cat.event_countryCode <;>
      rcases i with _ | _ | _ | _ | _ | _ | i <;>
        simp_all [List.get?]

/-- Witness for C10: with a region resolving to `"GB"` and a positive
liquidity minimum, the evaluation on a book with no `totalMatched` marks the
liquidity check failed. -/
theorem C10_missing_totalMatched_is_zero_witness :
    ((evaluate_market_rules ⟨some "GB", []⟩ ⟨none, []⟩ ⟨8, 8, 1, 5, 7/4⟩
        ⟨[("GB", ⟨"Great Britain", ["GB"]⟩)], fun _ => ⟨2, 20⟩, fun _ => 500,
          ⟨⟨3, 13/20⟩, ⟨5, 6/5⟩, ⟨6, 5/4⟩⟩,
          ⟨⟨0, 0, none⟩, ⟨0, 0, none⟩, ⟨0, 0, none, 0⟩, 0, ⟨0, 0⟩⟩⟩).2.2.get? 2).map
      (·.ok) = some false :=
  ((C10_missing_totalMatched_is_zero ⟨some "GB", []⟩ ⟨8, 8, 1, 5, 7/4⟩
      ⟨[("GB", ⟨"Great Britain", ["GB"]⟩)], fun _ => ⟨2, 20⟩, fun _ => 500,
        ⟨⟨3, 13/20⟩, ⟨5, 6/5⟩, ⟨6, 5/4⟩⟩,
        ⟨⟨0, 0, none⟩, ⟨0, 0, none⟩, ⟨0, 0, none, 0⟩, 0, ⟨0, 0⟩⟩⟩ []).2.1 "GB"
    rfl).2 (by norm_num)

/-- A list with fewer than two elements has no adjacent pairs. -/
theorem zip_tail_eq_nil {α : Type} {l : List α} (h : l.length < 2) :
    l.zip l.tail = [] := by
  rcases l with _ | ⟨a, _ | ⟨b, t⟩⟩
  · rfl
  · rfl
  · simp at h
    omega

/-- C5: on a ladder with fewer than two priced quotes the metrics fall back
asymmetrically — `soup_band_ratio` is the permissive `999.0` sentinel (so the
soup gate's `ratio > maxBandRatio` holds for any threshold below 999) while
`tier_max_adjacent_ratio` is `0.0` (so the tier gate's `ratio ≥ minJumpRatio`
fails for any positive threshold). -/
theorem C5_insufficient_data_defaults (ladders : List RunnerLadder) (n k m : ℤ)
    (h : (ladders.filter posBack).length < 2) :
    (compute_market_structure_metrics ladders n k m).soup_band_ratio = 999
    ∧ (compute_market_structure_metrics ladders n k m).tier_max_adjacent_ratio = 0
    ∧ (∀ thr : ℚ, thr < 999 →
        thr < (compute_market_structure_metrics ladders n k m).soup_band_ratio)
    ∧ (∀ thr : ℚ, 0 < thr →
        ¬ (thr ≤ (compute_market_structure_metrics ladders n k m).tier_max_adjacent_ratio)) := by
  have hs : ¬ (2 ≤ ((ladders.filter posBack).take (max k 0).toNat).length) := by
    rw [List.length_take]
    omega
  have ht : ((ladders.filter posBack).take (max m 0).toNat).length < 2 := by
    rw [List.length_take]
    omega
  have h1 : (compute_market_structure_metrics ladders n k m).soup_band_ratio = 999 := by
    simp only [compute_market_structure_metrics]
    rw [if_neg hs]
  have h2 : (compute_market_structure_metrics ladders n k m).tier_max_adjacent_ratio = 0 := by
    simp only [compute_market_structure_metrics]
    rw [zip_tail_eq_nil ht]
    rfl
  exact ⟨h1, h2, fun thr hthr => by rw [h1]; exact hthr,
    fun thr hthr hc => by rw [h2] at hc; linarith⟩

/-- Witness for C5 on a one-priced-runner ladder with the default gate sizes
and realistic thresholds 1.20 / 1.25. -/
theorem C5_insufficient_data_defaults_witness :
    (compute_market_structure_metrics [⟨1, none, "a", some 2, none⟩] 3 5 6).soup_band_ratio = 999
    ∧ (6/5 : ℚ) <
        (compute_market_structure_metrics [⟨1, none, "a", some 2, none⟩] 3 5 6).soup_band_ratio
    ∧ ¬ ((5/4 : ℚ) ≤
        (compute_market_structure_metrics [⟨1, none, "a", some 2, none⟩] 3 5 6).tier_max_adjacent_ratio) := by
  have h := C5_insufficient_data_defaults [⟨1, none, "a", some 2, none⟩] 3 5 6
    (lt_of_le_of_lt (List.length_filter_le _ _) (by norm_num))
  exact ⟨h.1, h.2.2.1 (6/5) (by norm_num), h.2.2.2 (5/4) (by norm_num)⟩

/-- The band scan hits some containing band when one exists in the list. -/
theorem bandScan_eq_some {p : ℚ} :
    ∀ {L : List (ℚ × ℚ × ℚ)}, (∃ b ∈ L, b.1 ≤ p ∧ p ≤ b.2.1) →
      ∃ b ∈ L, b.1 ≤ p ∧ p ≤ b.2.1 ∧ bandScan p L = some b.2.2 := by
  intro L
  induction L with
  | nil => rintro ⟨b, hb, -⟩; cases hb
  | cons hd tl ih =>
    intro hex
    by_cases hc : hd.1 ≤ p ∧ p ≤ hd.2.1
    · exact ⟨hd, List.mem_cons_self _ _, hc.1, hc.2, by simp [bandScan, hc]⟩
    · obtain ⟨b, hb, hbp⟩ := hex
      rcases List.mem_cons.1 hb with rfl | htl
      · exact absurd hbp hc
      · obtain ⟨c, hctl, h1, h2, h3⟩ := ih ⟨b, htl, hbp⟩
        exact ⟨c, List.mem_cons_of_mem _ hctl, h1, h2, by simp [bandScan, hc, h3]⟩

/-- The band scan misses when no band in the list contains the price. -/
theorem bandScan_eq_none {p : ℚ} :
    ∀ {L : List (ℚ × ℚ × ℚ)}, (∀ b ∈ L, ¬ (b.1 ≤ p ∧ p ≤ b.2.1)) →
      bandScan p L = none := by
  intro L
  induction L with
  | nil => intro; rfl
  | cons hd tl ih =>
    intro h
    have hhd := h hd (List.mem_cons_self _ _)
    simp only [bandScan, if_neg hhd]
    exact ih (fun b hb => h b (List.mem_cons_of_mem _ hb))

/-- No tick band contains a price below 1.01 or above 1000. -/
theorem no_band_out_of_range {p : ℚ} (h : p < 101/100 ∨ 1000 < p) :
    ∀ b ∈ TICK_BANDS, ¬ (b.1 ≤ p ∧ p ≤ b.2.1) := by
  intro b hb
  simp only [TICK_BANDS, List.mem_cons, List.not_mem_nil, or_false] at hb
  rcases h with h | h <;>
    rcases hb with rfl | rfl | rfl | rfl | rfl | rfl | rfl | rfl | rfl | rfl <;>
      rintro ⟨h1, h2⟩ <;> simp only at h1 h2 <;> linarith

/-- C4 counterexample: for a price above the band table's range the
`markets/structure_metrics.py` `tick_size` falls back to the smallest tick
0.01, not the largest band's 10.0 as the claim states. -/
theorem C4_counterexample_above_range :
    Markets.tick_size 2000 = 1/100 ∧ ¬ (Markets.tick_size 2000 = 10) := by
  have h : Markets.tick_size 2000 = 1/100 := by
    unfold Markets.tick_size
    rw [bandScan_eq_none (no_band_out_of_range (by norm_num))]
  exact ⟨h, by rw [h]; norm_num⟩

/-- C4 amended: for a price inside the table's range, the
`markets/structure_metrics.py` `tick_size` returns the tick of a band
containing the price; below the range both variants return the smallest tick
0.01; above the range the `services/ticks.py` variant returns the largest
band's 10.0 while the `markets/structure_metrics.py` variant falls back to
0.01.  Both are total functions (never raise). -/
theorem C4_tick_size_band_behaviour :
    (∀ p : ℚ, 101/100 ≤ p → p ≤ 1000 →
      ∃ b ∈ TICK_BANDS, b.1 ≤ p ∧ p ≤ b.2.1 ∧ Markets.tick_size p = b.2.2)
    ∧ (∀ p : ℚ, p < 101/100 → Markets.tick_size p = 1/100)
    ∧ (∀ p : ℚ, p < 2 → Services.tick_size p = 1/100)
    ∧ (∀ p : ℚ, 1000 < p → Markets.tick_size p = 1/100)
    ∧ (∀ p : ℚ, 1000 < p → Services.tick_size p = 10) := by
  refine ⟨?_, ?_, ?_, ?_, ?_⟩
  · intro p hlo hhi
    have hex : ∃ b ∈ TICK_BANDS, b.1 ≤ p ∧ p ≤ b.2.1 := by
      rcases le_or_lt p 2 with h2 | h2
      · exact ⟨(101/100, 2, 1/100), by simp [TICK_BANDS], hlo, h2⟩
      rcases le_or_lt p 3 with h3 | h3
      · exact ⟨(2, 3, 2/100), by simp [TICK_BANDS], le_of_lt h2, h3⟩
      rcases le_or_lt p 4 with h4 | h4
      · exact ⟨(3, 4, 5/100), by simp [TICK_BANDS], le_of_lt h3, h4⟩
      rcases le_or_lt p 6 with h6 | h6
      · exact ⟨(4, 6, 10/100), by simp [TICK_BANDS], le_of_lt h4, h6⟩
      rcases le_or_lt p 10 with h10 | h10
      · exact ⟨(6, 10, 20/100), by simp [TICK_BANDS], le_of_lt h6, h10⟩
      rcases le_or_lt p 20 with h20 | h20
      · exact ⟨(10, 20, 50/100), by simp [TICK_BANDS], le_of_lt h10, h20⟩
      rcases le_or_lt p 30 with h30 | h30
      · exact ⟨(20, 30, 1), by simp [TICK_BANDS], le_of_lt h20, h30⟩
      rcases le_or_lt p 50 with h50 | h50
      · exact ⟨(30, 50, 2), by simp [TICK_BANDS], le_of_lt h30, h50⟩
      rcases le_or_lt p 100 with h100 | h100
      · exact ⟨(50, 100, 5), by simp [TICK_BANDS], le_of_lt h50, h100⟩
      exact ⟨(100, 1000, 10), by simp [TICK_BANDS], le_of_lt h100, hhi⟩
    obtain ⟨b, hb, h1, h2, h3⟩ := bandScan_eq_some hex
    refine ⟨b, hb, h1, h2, ?_⟩
    unfold Markets.tick_size
    rw [h3]
  · intro p hp
    unfold Markets.tick_size
    rw [bandScan_eq_none (no_band_out_of_range (Or.inl hp))]
  · intro p hp
    simp only [Services.tick_size]
    rw [if_pos hp]
  · intro p hp
    unfold Markets.tick_size
    rw [bandScan_eq_none (no_band_out_of_range (Or.inr hp))]
  · intro p hp
    simp only [Services.tick_size]
    rw [if_neg (by linarith), if_neg (by linarith), if_neg (by linarith),
      if_neg (by linarith), if_neg (by linarith), if_neg (by linarith),
      if_neg (by linarith), if_neg (by linarith), if_neg (by linarith)]

/-- Witness for C4 at 1.50 (in band one), 1.005 (below range) and 2000 (above
range). -/
theorem C4_tick_size_band_behaviour_witness :
    (∃ b ∈ TICK_BANDS, b.1 ≤ (3/2 : ℚ) ∧ (3/2 : ℚ) ≤ b.2.1 ∧ Markets.tick_size (3/2) = b.2.2)
    ∧ Markets.tick_size (201/200) = 1/100
    ∧ Services.tick_size (201/200) = 1/100
    ∧ Markets.tick_size 2000 = 1/100
    ∧ Services.tick_size 2000 = 10 :=
  ⟨C4_tick_size_band_behaviour.1 (3/2) (by norm_num) (by norm_num),
   C4_tick_size_band_behaviour.2.1 (201/200) (by norm_num),
   C4_tick_size_band_behaviour.2.2.1 (201/200) (by norm_num),
   C4_tick_size_band_behaviour.2.2.2.1 2000 (by norm_num),
   C4_tick_size_band_behaviour.2.2.2.2 2000 (by norm_num)⟩

/-- C3 counterexample: `ticks_between(1.98, 2.02)` is 4 in both tick modules,
not the 3 the claim states — from 2.00 the walker still applies the first
(inclusive) band's 0.01 tick, visiting 2.01 before a 0.02 step overshoots to
2.03, and the constant-increment variant computes `round(0.04 / 0.01)`. -/
theorem C3_counterexample_198_202 :
    Markets.ticks_between (99/50) (101/50) ≠ 3
    ∧ Services.ticks_between (99/50) (101/50) ≠ 3 := by
  rw [ticks_between_198_202, svc_ticks_between_198_202]
  norm_num

/-- C3 amended: `ticks_between(1.50, 1.55) = 5` holds as claimed, but
`ticks_between(1.98, 2.02) = 4` (not 3) in both the band-aware walker of
`markets/structure_metrics.py` and the constant-increment variant of
`services/ticks.py`.  The walker is nevertheless band-aware rather than a
constant-increment division: from 2.98 to 3.10 it takes 4 steps where
division by the 0.02 tick at the start price gives 6. -/
theorem C3_band_aware_stepping :
    Markets.ticks_between (3/2) (31/20) = 5
    ∧ Markets.ticks_between (99/50) (101/50) = 4
    ∧ Services.ticks_between (3/2) (31/20) = 5
    ∧ Services.ticks_between (99/50) (101/50) = 4
    ∧ Markets.ticks_between (149/50) (31/10) = 4
    ∧ Services.ticks_between (149/50) (31/10) = 6 :=
  ⟨ticks_between_150_155, ticks_between_198_202,
   svc_ticks_between_150_155, svc_ticks_between_198_202,
   ticks_between_298_310, svc_ticks_between_298_310⟩

theorem keyLe_refl (a : ℕ × ℤ × ℚ) : keyLe a a := by
  unfold keyLe
  right
  exact ⟨rfl, Or.inr ⟨rfl, le_refl _⟩⟩

theorem keyLe_total (a b : ℕ × ℤ × ℚ) : keyLe a b ∨ keyLe b a := by
  unfold keyLe
  rcases lt_trichotomy a.1 b.1 with h | h | h
  · exact Or.inl (Or.inl h)
  · rcases lt_trichotomy a.2.1 b.2.1 with h2 | h2 | h2
    · exact Or.inl (Or.inr ⟨h, Or.inl h2⟩)
    · rcases le_total a.2.2 b.2.2 with h3 | h3
      · exact Or.inl (Or.inr ⟨h, Or.inr ⟨h2, h3⟩⟩)
      · exact Or.inr (Or.inr ⟨h.symm, Or.inr ⟨h2.symm, h3⟩⟩)
    · exact Or.inr (Or.inr ⟨h.symm, Or.inl h2⟩)
  · exact Or.inr (Or.inl h)

theorem keyLe_trans {a b c : ℕ × ℤ × ℚ} (hab : keyLe a b) (hbc : keyLe b c) :
    keyLe a c := by
  unfold keyLe at *
  rcases hab with h1 | ⟨e1, hab2⟩
  · rcases hbc with g1 | ⟨f1, -⟩
    · exact Or.inl (h1.trans g1)
    · exact Or.inl (f1 ▸ h1)
  · rcases hbc with g1 | ⟨f1, hbc2⟩
    · exact Or.inl (e1 ▸ g1)
    · refine Or.inr ⟨e1.trans f1, ?_⟩
      rcases hab2 with h2 | ⟨e2, h3⟩
      · rcases hbc2 with g2 | ⟨f2, -⟩
        · exact Or.inl (h2.trans g2)
        · exact Or.inl (f2 ▸ h2)
      · rcases hbc2 with g2 | ⟨f2, g3⟩
        · exact Or.inl (e2 ▸ g2)
        · exact Or.inr ⟨e2.trans f2, h3.trans g3⟩

theorem orderLe_trans (a b c : RunnerSelectionRow)
    (hab : orderLe a b = true) (hbc : orderLe b c = true) : orderLe a c = true := by
  simp only [orderLe, boolOf_eq_true] at *
  exact keyLe_trans hab hbc

theorem orderLe_total (a b : RunnerSelectionRow) : (orderLe a b || orderLe b a) = true := by
  simp only [orderLe, Bool.or_eq_true, boolOf_eq_true]
  exact keyLe_total _ _

/-- The head of a mergeSort by a total transitive Boolean relation is a
minimal member of the list. -/
theorem mergeSort_head_min {α : Type} (le : α → α → Bool)
    (htrans : ∀ a b c, le a b = true → le b c = true → le a c = true)
    (htotal : ∀ a b, (le a b || le b a) = true)
    (l : List α) (row : α) (tl : List α) (h : l.mergeSort le = row :: tl) :
    row ∈ l ∧ ∀ x ∈ l, le row x = true := by
  have hperm := List.mergeSort_perm l le
  have hsorted := List.sorted_mergeSort htrans htotal l
  rw [h] at hperm hsorted
  refine ⟨hperm.subset (List.mem_cons_self _ _), ?_⟩
  intro x hx
  have hx2 : x ∈ row :: tl := hperm.symm.subset hx
  rcases List.mem_cons.1 hx2 with rfl | hxtl
  · have := htotal x x
    simpa using this
  · exact (List.pairwise_cons.1 hsorted).1 x hxtl

/-- C2: the runner selection picks the head of the PRIMARY pool ordered by
`(spread_ticks, distance_ticks, best_back)` whenever that pool is non-empty;
only when PRIMARY is empty does it pick the head of the ordered SECONDARY
pool; with both pools empty no runner is selected. -/
theorem C2_primary_then_secondary_tuple_order (ladders : List RunnerLadder)
    (metrics : MarketStructureMetrics) (cfg : FilterConfig) :
    (eligiblePrimary ladders metrics cfg ≠ [] →
      ∃ row ∈ eligiblePrimary ladders metrics cfg,
        (select_candidate_runner ladders metrics cfg).1 = some row.runner ∧
        ∀ other ∈ eligiblePrimary ladders metrics cfg, keyLe (okey row) (okey other))
    ∧ (eligiblePrimary ladders metrics cfg = [] →
        eligibleSecondary ladders metrics cfg ≠ [] →
        ∃ row ∈ eligibleSecondary ladders metrics cfg,
          (select_candidate_runner ladders metrics cfg).1 = some row.runner ∧
          ∀ other ∈ eligibleSecondary ladders metrics cfg, keyLe (okey row) (okey other))
    ∧ (eligiblePrimary ladders metrics cfg = [] →
        eligibleSecondary ladders metrics cfg = [] →
        (select_candidate_runner ladders metrics cfg).1 = none) := by
  refine ⟨?_, ?_, ?_⟩
  · intro hne
    cases hps : (eligiblePrimary ladders metrics cfg).mergeSort orderLe with
    | nil =>
      exfalso
      have := @List.length_mergeSort _ orderLe (eligiblePrimary ladders metrics cfg)
      rw [hps] at this
      exact hne (List.length_eq_zero.1 this.symm)
    | cons row tl =>
      obtain ⟨hmem, hmin⟩ := mergeSort_head_min orderLe orderLe_trans orderLe_total _ _ _ hps
      refine ⟨row, hmem, ?_, ?_⟩
      · unfold select_candidate_runner
        rw [hps]
      · intro other hother
        have := hmin other hother
        simpa [orderLe] using this
  · intro hpe hne
    cases hss : (eligibleSecondary ladders metrics cfg).mergeSort orderLe with
    | nil =>
      exfalso
      have := @List.length_mergeSort _ orderLe (eligibleSecondary ladders metrics cfg)
      rw [hss] at this
      exact hne (List.length_eq_zero.1 this.symm)
    | cons row tl =>
      obtain ⟨hmem, hmin⟩ := mergeSort_head_min orderLe orderLe_trans orderLe_total _ _ _ hss
      refine ⟨row, hmem, ?_, ?_⟩
      · unfold select_candidate_runner
        rw [hpe, hss]
        simp [List.mergeSort]
      · intro other hother
        have := hmin other hother
        simpa [orderLe] using this
  · intro hpe hse
    unfold select_candidate_runner
    rw [hpe, hse]
    simp [List.mergeSort]

/-- On the fixture, the primary pool holds exactly the one runner's row. -/
theorem eligiblePrimary_wRunner :
    eligiblePrimary [wRunner] wMet wCfg =
      [⟨wRunner, 1, "PRIMARY", some 0, some 0, 0, ⟨BaseReason.inPrimaryBand, none⟩⟩] := by
  norm_num [eligiblePrimary, selectionProcessed, processRunner, wRunner, wCfg, wMet, posBack,
    List.filter, List.filterMap, List.mergeSort, List.enumFrom, rowsLe, boolOf, pySortVal,
    RunnerLadder.spread_ticks, Markets.ticks_between, distance_ticks, pyRound,
    Markets.tick_size, bandScan, TICK_BANDS, primary_target]

/-- Witness for C2 on the fixture: the primary pool is non-empty and its
minimal row's runner is selected. -/
theorem C2_primary_then_secondary_tuple_order_witness :
    ∃ row ∈ eligiblePrimary [wRunner] wMet wCfg,
      (select_candidate_runner [wRunner] wMet wCfg).1 = some row.runner ∧
      ∀ other ∈ eligiblePrimary [wRunner] wMet wCfg, keyLe (okey row) (okey other) :=
  (C2_primary_then_secondary_tuple_order [wRunner] wMet wCfg).1 (by
    rw [eligiblePrimary_wRunner]
    simp)

/-- Every branch of the per-runner loop records the runner's price rank. -/
theorem processRunner_rank (cfg : FilterConfig) (anchored_ok : Bool) (total idx : ℕ)
    (r : RunnerLadder) : (processRunner cfg anchored_ok total idx r).1.price_rank = idx := by
  unfold processRunner
  rcases r.best_back with _ | back <;> rcases r.best_lay with _ | lay <;>
    simp only
  all_goals (split_ifs <;> rfl)

/-- C6 counterexample: a runner with no best back is dropped before the audit
loop, so the debug list has no row for it — the input ladder has one runner
but the audit list is empty. -/
theorem C6_counterexample_missing_back_runner :
    (select_candidate_runner [⟨1, none, "a", none, some 2⟩] wMet wCfg).2.length ≠
      ([(⟨1, none, "a", none, some 2⟩ : RunnerLadder)]).length := by
  norm_num [select_candidate_runner, selectionDebug, selectionProcessed, eligiblePrimary,
    eligibleSecondary, posBack, List.filter, List.filterMap, List.mergeSort, List.enumFrom]

/-- C6 amended: the audit list returned by `select_candidate_runner` contains
one row for every runner of the input ladder *that has a positive best back*
(runners with no best back, or a non-positive one, are filtered out before the
loop and appear nowhere), ranked 1..n in price order; the audit list is
returned unchanged whatever the selection outcome. -/
theorem C6_audit_rows_per_priced_runner (ladders : List RunnerLadder)
    (metrics : MarketStructureMetrics) (cfg : FilterConfig) :
    (selectionDebug ladders metrics cfg).length = (ladders.filter posBack).length
    ∧ (selectionDebug ladders metrics cfg).map (·.price_rank) =
        List.range' 1 (ladders.filter posBack).length
    ∧ (select_candidate_runner ladders metrics cfg).2 = selectionDebug ladders metrics cfg := by
  refine ⟨?_, ?_, ?_⟩
  · simp [selectionDebug, selectionProcessed, List.enumFrom_length]
  · have h1 : (selectionDebug ladders metrics cfg).map (·.price_rank) =
        (((ladders.filter posBack).mergeSort rowsLe).enumFrom 1).map Prod.fst := by
      simp only [selectionDebug, selectionProcessed, List.map_map]
      exact List.map_congr_left (fun p _ => processRunner_rank _ _ _ _ _)
    rw [h1, List.enumFrom_map_fst, List.length_mergeSort]
  · unfold select_candidate_runner
    cases (eligiblePrimary ladders metrics cfg).mergeSort orderLe with
    | cons row tl => rfl
    | nil =>
      cases (eligibleSecondary ladders metrics cfg).mergeSort orderLe with
      | cons row tl => rfl
      | nil => rfl

/-- A selected runner always comes from one of the two eligibility pools. -/
theorem selected_mem_pools (ladders : List RunnerLadder) (metrics : MarketStructureMetrics)
    (cfg : FilterConfig) (r : RunnerLadder)
    (hsel : (select_candidate_runner ladders metrics cfg).1 = some r) :
    (∃ row ∈ eligiblePrimary ladders metrics cfg, row.runner = r)
    ∨ (∃ row ∈ eligibleSecondary ladders metrics cfg, row.runner = r) := by
  unfold select_candidate_runner at hsel
  cases hps : (eligiblePrimary ladders metrics cfg).mergeSort orderLe with
  | cons row tl =>
    rw [hps] at hsel
    simp only at hsel
    refine Or.inl ⟨row, ?_, by injection hsel⟩
    exact (List.mergeSort_perm _ orderLe).subset (hps ▸ List.mem_cons_self _ _)
  | nil =>
    rw [hps] at hsel
    cases hss : (eligibleSecondary ladders metrics cfg).mergeSort orderLe with
    | cons row tl =>
      rw [hss] at hsel
      simp only at hsel
      refine Or.inr ⟨row, ?_, by injection hsel⟩
      exact (List.mergeSort_perm _ orderLe).subset (hss ▸ List.mem_cons_self _ _)
    | nil =>
      rw [hss] at hsel
      simp at hsel

/-- C7 amended: for a Phase-A survivor (back and lay present, both inside the
hard band, spread within bounds, not rank-excluded) the loop classifies it
into the secondary pool exactly when its back lies in the secondary band, the
anchor condition holds, *and* it is not in the primary band (primary takes
precedence); when the anchor condition fails and the runner sits in the
secondary band but not the primary band, it is recorded HARD with the
"secondary not allowed (anchoring)" reason and joins no pool (so it is never
selected, by `selected_mem_pools`). -/
theorem C7_secondary_needs_anchor_primary_precedence (cfg : FilterConfig)
    (anchored_ok : Bool) (total idx : ℕ) (r : RunnerLadder) (back lay : ℚ)
    (hb : r.best_back = some back) (hl : r.best_lay = some lay)
    (hhb : cfg.selection.hard_band.min ≤ back ∧ back ≤ cfg.selection.hard_band.max)
    (hhl : cfg.selection.hard_band.min ≤ lay ∧ lay ≤ cfg.selection.hard_band.max)
    (hsp : ∃ s, r.spread_ticks = some s ∧ (s : ℤ) ≤ cfg.selection.max_spread_ticks)
    (hrk1 : ¬ (0 < cfg.selection.rank_exclusion.top_n ∧
        (idx : ℤ) ≤ cfg.selection.rank_exclusion.top_n))
    (hrk2 : ¬ (0 < cfg.selection.rank_exclusion.bottom_n ∧
        (total : ℤ) - (idx : ℤ) < cfg.selection.rank_exclusion.bottom_n)) :
    ((processRunner cfg anchored_ok total idx r).2 = PoolTag.secondaryPool ↔
      ((cfg.selection.secondary_band.min ≤ back ∧ back ≤ cfg.selection.secondary_band.max)
        ∧ anchored_ok = true
        ∧ ¬ (cfg.selection.primary_band.min ≤ back ∧ back ≤ cfg.selection.primary_band.max)))
    ∧ (anchored_ok = false →
        (cfg.selection.secondary_band.min ≤ back ∧ back ≤ cfg.selection.secondary_band.max) →
        ¬ (cfg.selection.primary_band.min ≤ back ∧ back ≤ cfg.selection.primary_band.max) →
        processRunner cfg anchored_ok total idx r =
          (⟨r, idx, "HARD", r.spread_ticks, none, -9999,
            ⟨BaseReason.secondaryNotAllowedAnchoring, none⟩⟩, PoolTag.noPool)) := by
  obtain ⟨s, hs, hsle⟩ := hsp
  have hred : processRunner cfg anchored_ok total idx r =
      (if cfg.selection.primary_band.min ≤ back ∧ back ≤ cfg.selection.primary_band.max then
        (⟨r, idx, "PRIMARY", r.spread_ticks,
          some (distance_ticks back (primary_target cfg)), 0,
          ⟨BaseReason.inPrimaryBand, none⟩⟩, PoolTag.primaryPool)
      else if anchored_ok = true ∧
          (cfg.selection.secondary_band.min ≤ back ∧
            back ≤ cfg.selection.secondary_band.max) then
        (⟨r, idx, "SECONDARY", r.spread_ticks,
          some (distance_ticks back (secondary_target cfg)), 0,
          ⟨BaseReason.secondaryAllowedAnchored, none⟩⟩, PoolTag.secondaryPool)
      else if (cfg.selection.secondary_band.min ≤ back ∧
            back ≤ cfg.selection.secondary_band.max) ∧ ¬ (anchored_ok = true) then
        (⟨r, idx, "HARD", r.spread_ticks, none, -9999,
          ⟨BaseReason.secondaryNotAllowedAnchoring, none⟩⟩, PoolTag.noPool)
      else
        (⟨r, idx, "HARD", r.spread_ticks, none, -9999,
          ⟨BaseReason.notInAllowedBand, none⟩⟩, PoolTag.noPool)) := by
    unfold processRunner
    simp only [hb, hl, hs]
    rw [if_neg (not_not_intro hhb), if_neg (not_not_intro hhl),
      if_neg (by simp only [boolOf_eq_true]; omega), if_neg hrk1, if_neg hrk2]
  constructor
  · rw [hred]
    by_cases hp : cfg.selection.primary_band.min ≤ back ∧ back ≤ cfg.selection.primary_band.max
    · rw [if_pos hp]
      simp [hp]
    · rw [if_neg hp]
      by_cases ha : anchored_ok = true ∧
          (cfg.selection.secondary_band.min ≤ back ∧ back ≤ cfg.selection.secondary_band.max)
      · rw [if_pos ha]
        simp [ha.1, ha.2, hp]
      · rw [if_neg ha]
        split_ifs <;> simp <;> tauto
  · intro hanch hsec hnp
    rw [hred, if_neg hnp, if_neg (by rw [hanch]; simp), if_pos ⟨hsec, by rw [hanch]; simp⟩]

/-- C7 counterexample: the anchor condition fails (1/3 < 0.65) and the
runner's back 3.0 lies in the secondary band, yet — the bands overlapping and
primary taking precedence — the runner is recorded PRIMARY, not HARD, and is
selected. -/
theorem C7_counterexample_primary_precedence :
    ¬ ((13/20 : ℚ) ≤ wMet.top_n_implied_sum)
    ∧ (c7Cfg.selection.secondary_band.min ≤ 3 ∧ (3 : ℚ) ≤ c7Cfg.selection.secondary_band.max)
    ∧ (select_candidate_runner [wRunner] wMet c7Cfg).1 = some wRunner
    ∧ (selectionDebug [wRunner] wMet c7Cfg).map (·.band) = ["PRIMARY"] := by
  refine ⟨by norm_num [wMet], by norm_num [c7Cfg], ?_, ?_⟩ <;>
    norm_num [select_candidate_runner, selectionDebug, selectionProcessed, processRunner,
      eligiblePrimary, eligibleSecondary, wRunner, c7Cfg, wMet, posBack, List.filter,
      List.filterMap, List.mergeSort, List.enumFrom, rowsLe, boolOf, pySortVal,
      RunnerLadder.spread_ticks, Markets.ticks_between, distance_ticks, pyRound,
      Markets.tick_size, bandScan, TICK_BANDS, primary_target, orderLe]

/-- Witness for C7: a Phase-A survivor in the secondary band but outside the
primary band, with the anchor condition failed, is recorded HARD and pooled
nowhere. -/
theorem C7_secondary_needs_anchor_primary_precedence_witness :
    processRunner c7wCfg false 1 1 wRunner =
      (⟨wRunner, 1, "HARD", wRunner.spread_ticks, none, -9999,
        ⟨BaseReason.secondaryNotAllowedAnchoring, none⟩⟩, PoolTag.noPool) :=
  (C7_secondary_needs_anchor_primary_precedence c7wCfg false 1 1 wRunner 3 3 rfl rfl
    (by norm_num [c7wCfg]) (by norm_num [c7wCfg])
    ⟨0, by norm_num [wRunner, RunnerLadder.spread_ticks, Markets.ticks_between],
      by norm_num [c7wCfg]⟩
    (by norm_num [c7wCfg]) (by norm_num [c7wCfg])).2 rfl (by norm_num [c7wCfg])
    (by norm_num [c7wCfg])

/-- A `filterMap` by a guarded constructor keeps exactly the elements passing
the guard. -/
theorem filterMap_if_length {α β : Type} (p : α → Prop) [DecidablePred p] (f : α → β)
    (l : List α) :
    (l.filterMap (fun a => if p a then some (f a) else none)).length =
      (l.filter (fun a => boolOf (p a))).length := by
  induction l with
  | nil => rfl
  | cons hd tl ih => by_cases h : p hd <;> simp [h, ih, boolOf]

/-- Mapping after a guarded `filterMap` is mapping the composite over the
filtered list. -/
theorem filterMap_if_map {α β γ : Type} (p : α → Prop) [DecidablePred p] (f : α → β)
    (g : β → γ) (l : List α) :
    (l.filterMap (fun a => if p a then some (f a) else none)).map g =
      (l.filter (fun a => boolOf (p a))).map (fun a => g (f a)) := by
  induction l with
  | nil => rfl
  | cons hd tl ih => by_cases h : p hd <;> simp [h, ih, boolOf]

/-- Membership in the built ladder: exactly the ACTIVE book runners, carrying
the joined name/cloth number and the extracted best prices. -/
theorem mem_build_runner_ladders {cat : MarketCatalogue} {book : MarketBook}
    {r : RunnerLadder} :
    r ∈ build_runner_ladders cat book ↔ ∃ rb ∈ book.runners, rb.status = "ACTIVE" ∧
      r = ⟨rb.selectionId, clothNum cat rb.selectionId, catName cat rb.selectionId,
        best_price rb.availableToBack, best_price rb.availableToLay⟩ := by
  unfold build_runner_ladders
  rw [List.mem_mergeSort, List.mem_filterMap]
  constructor
  · rintro ⟨rb, hrb, heq⟩
    by_cases h : rb.status = "ACTIVE"
    · rw [if_pos h] at heq
      injection heq with heq
      exact ⟨rb, hrb, h, heq.symm⟩
    · rw [if_neg h] at heq
      cases heq
  · rintro ⟨rb, hrb, hact, rfl⟩
    exact ⟨rb, hrb, by rw [if_pos hact]⟩

theorem compute_runner_count (L : List RunnerLadder) (n k m : ℤ) :
    (compute_market_structure_metrics L n k m).runner_count = L.length := rfl

/-- C8: the built ladder consists of exactly the ACTIVE book runners — same
count, entries drawn from ACTIVE book entries only, selection ids a
permutation of the ACTIVE ids — and the field-size check of
`evaluate_market_rules` brackets that ACTIVE-ladder count (the metrics'
`runner_count`), not the priced-runner count, between the resolved region's
inclusive bounds. -/
theorem C8_field_size_brackets_active_count (cat : MarketCatalogue) (book : MarketBook)
    (cfg : FilterConfig) (mb : MarketBook) (n k m : ℤ) :
    (build_runner_ladders cat book).length =
      (book.runners.filter (fun rb => boolOf (rb.status = "ACTIVE"))).length
    ∧ (∀ r ∈ build_runner_ladders cat book, ∃ rb ∈ book.runners,
        rb.status = "ACTIVE" ∧ rb.selectionId = r.selection_id ∧
        r.best_back = best_price rb.availableToBack ∧
        r.best_lay = best_price rb.availableToLay)
    ∧ ((build_runner_ladders cat book).map (·.selection_id)).Perm
        ((book.runners.filter (fun rb => boolOf (rb.status = "ACTIVE"))).map (·.selectionId))
    ∧ (∀ rc, region_for_country cfg cat.event_countryCode = some rc →
        (evaluate_market_rules cat mb
            (compute_market_structure_metrics (build_runner_ladders cat book) n k m)
            cfg).2.2.get? 1 =
          some ⟨boolOf ((cfg.runner_range rc).min ≤
              (((book.runners.filter (fun rb => boolOf (rb.status = "ACTIVE"))).length : ℕ) : ℤ) ∧
              (((book.runners.filter (fun rb => boolOf (rb.status = "ACTIVE"))).length : ℕ) : ℤ) ≤
              (cfg.runner_range rc).max),
            Check.fieldSize,
            RuleDetail.fieldSize
              (book.runners.filter (fun rb => boolOf (rb.status = "ACTIVE"))).length
              (cfg.runner_range rc).min (cfg.runner_range rc).max⟩) := by
  have hlen : (build_runner_ladders cat book).length =
      (book.runners.filter (fun rb => boolOf (rb.status = "ACTIVE"))).length := by
    unfold build_runner_ladders
    rw [List.length_mergeSort]
    exact filterMap_if_length (fun rb : BookRunner => rb.status = "ACTIVE") _ _
  refine ⟨hlen, ?_, ?_, ?_⟩
  · intro r hr
    obtain ⟨rb, hrb, hact, rfl⟩ := mem_build_runner_ladders.1 hr
    exact ⟨rb, hrb, hact, rfl, rfl, rfl⟩
  · have hperm : ((build_runner_ladders cat book).map (·.selection_id)).Perm
        ((book.runners.filterMap (fun rb =>
          if rb.status = "ACTIVE" then
            some (⟨rb.selectionId, clothNum cat rb.selectionId, catName cat rb.selectionId,
              best_price rb.availableToBack, best_price rb.availableToLay⟩ : RunnerLadder)
          else none)).map (·.selection_id)) :=
      (List.mergeSort_perm _ ladderLe).map _
    refine hperm.trans ?_
    rw [filterMap_if_map (fun rb : BookRunner => rb.status = "ACTIVE")
      (fun rb => (⟨rb.selectionId, clothNum cat rb.selectionId, catName cat rb.selectionId,
        best_price rb.availableToBack, best_price rb.availableToLay⟩ : RunnerLadder))
      (fun x => x.selection_id) book.runners]
  · intro rc hrc
    simp only [evaluate_market_rules, hrc]
    simp [List.get?, compute_runner_count, hlen]

/-- Witness for C8: a two-runner book with one ACTIVE and one REMOVED runner,
region "GB" with runner range [2, 20]: the field-size check sees count 1 (the
REMOVED runner does not count) and fails. -/
theorem C8_field_size_brackets_active_count_witness :
    (evaluate_market_rules ⟨some "GB", []⟩ ⟨none, []⟩
        (compute_market_structure_metrics
          (build_runner_ladders ⟨some "GB", []⟩
            ⟨some 100, [⟨1, "ACTIVE", [⟨some 3, 10⟩], [⟨some 3, 10⟩]⟩,
              ⟨2, "REMOVED", [⟨some 4, 10⟩], [⟨some 5, 10⟩]⟩]⟩) 3 5 6)
        wCfg).2.2.get? 1 =
      some ⟨boolOf ((wCfg.runner_range "GB").min ≤
          ((([⟨1, "ACTIVE", [⟨some 3, 10⟩], [⟨some 3, 10⟩]⟩,
              ⟨2, "REMOVED", [⟨some 4, 10⟩], [⟨some 5, 10⟩]⟩] :
              List BookRunner).filter (fun rb => boolOf (rb.status = "ACTIVE"))).length : ℤ) ∧
          ((([⟨1, "ACTIVE", [⟨some 3, 10⟩], [⟨some 3, 10⟩]⟩,
              ⟨2, "REMOVED", [⟨some 4, 10⟩], [⟨some 5, 10⟩]⟩] :
              List BookRunner).filter (fun rb => boolOf (rb.status = "ACTIVE"))).length : ℤ) ≤
          (wCfg.runner_range "GB").max),
        Check.fieldSize,
        RuleDetail.fieldSize
          (([⟨1, "ACTIVE", [⟨some 3, 10⟩], [⟨some 3, 10⟩]⟩,
            ⟨2, "REMOVED", [⟨some 4, 10⟩], [⟨some 5, 10⟩]⟩] :
            List BookRunner).filter (fun rb => boolOf (rb.status = "ACTIVE"))).length
          (wCfg.runner_range "GB").min (wCfg.runner_range "GB").max⟩ :=
  (C8_field_size_brackets_active_count ⟨some "GB", []⟩
    ⟨some 100, [⟨1, "ACTIVE", [⟨some 3, 10⟩], [⟨some 3, 10⟩]⟩,
      ⟨2, "REMOVED", [⟨some 4, 10⟩], [⟨some 5, 10⟩]⟩]⟩ wCfg ⟨none, []⟩ 3 5 6).2.2.2 "GB" rfl

theorem ladderLe_trans (a b c : RunnerLadder) (h1 : ladderLe a b = true)
    (h2 : ladderLe b c = true) : ladderLe a c = true := by
  simp only [ladderLe, boolOf_eq_true] at *
  rcases h1 with ⟨ha, hb⟩ | ⟨he, hv⟩ <;> rcases h2 with ⟨hb2, hc⟩ | ⟨he2, hv2⟩
  · rw [hb] at hb2
    cases hb2
  · exact Or.inl ⟨ha, he2 ▸ hb⟩
  · exact Or.inl ⟨he.trans hb2, hc⟩
  · exact Or.inr ⟨he.trans he2, hv.trans hv2⟩

theorem ladderLe_total (a b : RunnerLadder) : (ladderLe a b || ladderLe b a) = true := by
  simp only [ladderLe, Bool.or_eq_true, boolOf_eq_true]
  rcases le_total (pySortVal a) (pySortVal b) with h | h <;>
    cases ha : a.best_back.isNone <;> cases hb : b.best_back.isNone <;> simp [h]

/-- C9: when every book back price is positive (the price domain of a
snapshot), the built ladder is sorted ascending by best back with all
unpriced entries after all priced entries — so the 1-based position is the
price rank. -/
theorem C9_ladder_sorted_priced_first (cat : MarketCatalogue) (book : MarketBook)
    (hpos : ∀ rb ∈ book.runners, ∀ e ∈ rb.availableToBack, ∀ p : ℚ,
      e.price = some p → 0 < p) :
    (build_runner_ladders cat book).Pairwise (fun a b =>
      (∀ x, a.best_back = some x → ∀ y, b.best_back = some y → x ≤ y)
      ∧ (a.best_back = none → b.best_back = none)) := by
  have hsorted : (build_runner_ladders cat book).Pairwise (fun a b => ladderLe a b = true) := by
    unfold build_runner_ladders
    exact List.sorted_mergeSort ladderLe_trans ladderLe_total _
  have hpos2 : ∀ r ∈ build_runner_ladders cat book, ∀ x : ℚ, r.best_back = some x → 0 < x := by
    intro r hr x hx
    obtain ⟨rb, hrb, hact, rfl⟩ := mem_build_runner_ladders.1 hr
    simp only [best_price] at hx
    cases hab : rb.availableToBack with
    | nil => rw [hab] at hx; cases hx
    | cons e tl =>
      rw [hab] at hx
      exact hpos rb hrb e (by rw [hab]; exact List.mem_cons_self _ _) x hx
  refine hsorted.imp_of_mem ?_
  intro a b ha hb hle
  simp only [ladderLe, boolOf_eq_true] at hle
  constructor
  · intro x hx y hy
    have hxa : a.best_back.isNone = false := by rw [hx]; rfl
    have hyb : b.best_back.isNone = false := by rw [hy]; rfl
    rcases hle with ⟨-, hcon⟩ | ⟨-, hv⟩
    · rw [hyb] at hcon
      cases hcon
    · have hxpos := hpos2 a ha x hx
      have hypos := hpos2 b hb y hy
      have hpa : pySortVal a = x := by
        simp only [pySortVal, hx]
        rw [if_neg (show ¬ x = 0 from fun h0 => by norm_num [h0] at hxpos)]
      have hpb : pySortVal b = y := by
        simp only [pySortVal, hy]
        rw [if_neg (show ¬ y = 0 from fun h0 => by norm_num [h0] at hypos)]
      rw [hpa, hpb] at hv
      exact hv
  · intro hanone
    have hat : a.best_back.isNone = true := by rw [hanone]; rfl
    rcases hle with ⟨hfa, -⟩ | ⟨heq, -⟩
    · rw [hat] at hfa
      cases hfa
    · exact Option.isNone_iff_eq_none.1 (heq ▸ hat)

/-- Witness for C9 on a one-runner book with a positive back price. -/
theorem C9_ladder_sorted_priced_first_witness :
    (build_runner_ladders ⟨none, []⟩ ⟨none, [⟨1, "ACTIVE", [⟨some 3, 10⟩], []⟩]⟩).Pairwise
      (fun a b => (∀ x, a.best_back = some x → ∀ y, b.best_back = some y → x ≤ y)
        ∧ (a.best_back = none → b.best_back = none)) :=
  C9_ladder_sorted_priced_first ⟨none, []⟩ ⟨none, [⟨1, "ACTIVE", [⟨some 3, 10⟩], []⟩]⟩ (by
    intro rb hrb e he p hp
    simp only [List.mem_singleton] at hrb
    subst hrb
    simp only [List.mem_singleton] at he
    subst he
    simp only at hp
    injection hp with hp
    rw [← hp]
    norm_num)
